import Mathlib

/-!
# goval-dictionary, package db: a shallow embedding of src/db/db.go

The file embeds the four operations of db.go that the specification talks about:

* NewDB (family dispatch),
* Base.MigrateDB (schema migration),
* Base.OpenDB (connection gateway and the process-wide flag migrated),
* Base.InsertFetchMeta (the fetch-metadata upsert).

Go strings are Lean strings, a Go error is its message (none for nil), and a
pair of results (value, error) is a pair of options.

The database engine (gorm v1 on top of database/sql) is a library outside the
repository.  Every call the code makes to it is recorded in a trace of calls, and
whether a call fails is left to an engine structure that the theorems quantify over.
What a call that succeeds does to the table fetch_meta follows the documented
behaviour of gorm:

* Begin succeeds; statements of a transaction act on a copy of the table that Commit
  persists and Rollback discards; a Commit that fails persists nothing;
* Where with a struct condition uses only the fields of the struct that are not the
  zero value of their type, and First takes the record with the least primary key;
  RecordNotFound holds exactly when the lookup met no other error and found nothing;
  a lookup that fails leaves its destination untouched;
* Create inserts, giving a record without primary key the next key;
* Save inserts a value whose primary key is zero and updates the record with the
  primary key of the value otherwise;
* the table stores a time stamp as it is given, and Time.Equal compares instants.
-/

namespace GovalDictionary

/-! ## Strings and formatting -/

/-- Go strings.Contains: substr occurs in s. -/
def stringsContains (s substr : String) : Bool :=
  s.data.tails.any (fun t => substr.data.isPrefixOf t)

/-- Go fmt with the verb %s applied to a slice of strings: the elements separated by
one blank, between square brackets. -/
def fmtStrings (xs : List String) : String :=
  "[" ++ " ".intercalate xs ++ "]"

/-! ## NewDB -/

/-- The family-name constants of package config that NewDB refers to (c.Debian,
c.Ubuntu, ...).  Package config lies outside the verified sources, so the values are
parameters of the model. -/
structure FamilyNames where
  Debian : String
  Ubuntu : String
  RedHat : String
  Oracle : String
  OpenSUSE : String
  OpenSUSELeap : String
  SUSEEnterpriseServer : String
  SUSEEnterpriseDesktop : String
  SUSEOpenstackCloud : String
deriving DecidableEq, Repr

/-- Modelled from the spec: the driver constructors NewDebian, NewUbuntu, NewRedHat,
NewOracle and NewSUSE, which live in files of package db outside the verified sources.
The specification (4.4) has each family map to a distinct driver construction, so a
driver is the constructor call that made it. -/
inductive OvalDB where
  | NewDebian
  | NewUbuntu
  | NewRedHat
  | NewOracle
  | NewSUSE (family : String)
deriving DecidableEq, Repr

/-- The slice suses built in the default branch of NewDB. -/
def suses (c : FamilyNames) : List String :=
  [c.OpenSUSE, c.OpenSUSELeap, c.SUSEEnterpriseServer, c.SUSEEnterpriseDesktop,
    c.SUSEOpenstackCloud]

/-- The loop of NewDB over suses: found starts false and is set when a name equals the
family. -/
def susesFound (names : List String) (family : String) : Bool :=
  names.foldl (fun found name => if name = family then true else found) false

/-- Message of fmt.Errorf("Unknown SUSE. Specify from %s: %s", suses, family). -/
def errUnknownSUSE (names : List String) (family : String) : String :=
  "Unknown SUSE. Specify from " ++ fmtStrings names ++ ": " ++ family

/-- Message of fmt.Errorf("Unknown OS Type: %s", family). -/
def errUnknownOSType (family : String) : String :=
  "Unknown OS Type: " ++ family

/-- NewDB of db.go: the driver and the error it returns for a family. -/
def NewDB (c : FamilyNames) (family : String) : Option OvalDB × Option String :=
  if family = c.Debian then (some OvalDB.NewDebian, none)
  else if family = c.Ubuntu then (some OvalDB.NewUbuntu, none)
  else if family = c.RedHat then (some OvalDB.NewRedHat, none)
  else if family = c.Oracle then (some OvalDB.NewOracle, none)
  else if stringsContains family "suse" then
    let found := susesFound (suses c) family
    if !found then (none, some (errUnknownSUSE (suses c) family))
    else (some (OvalDB.NewSUSE family), none)
  else (none, some (errUnknownOSType family))

/-- Example values for the family constants, used where a theorem is applied to a
concrete input. -/
def exampleNames : FamilyNames :=
  { Debian := "debian", Ubuntu := "ubuntu", RedHat := "redhat", Oracle := "oracle",
    OpenSUSE := "opensuse", OpenSUSELeap := "opensuse.leap",
    SUSEEnterpriseServer := "suse.linux.enterprise.server",
    SUSEEnterpriseDesktop := "suse.linux.enterprise.desktop",
    SUSEOpenstackCloud := "suse.openstack.cloud" }

/-! ## The database engine as the code sees it -/

/-- Modelled from the spec: the struct FetchMeta of package models, which lies outside
the verified sources.  It has the fields fileName and timestamp of the specification
(section 3) and the primary key ID by which gorm identifies a record.  A time stamp is
the instant it denotes, an integer offset from the zero time, so that Go Time.Equal is
equality and the zero value of the struct is (0, 0, ""). -/
structure FetchMeta where
  ID : Nat
  Timestamp : Int
  FileName : String
deriving DecidableEq, Repr

/-- One call of db.go into the engine. -/
inductive Call where
  | Open (dialect : String) (source : String)
  | LogMode (enable : Bool)
  | AutoMigrate (models : List String)
  | AddIndex (model : String) (indexName : String) (column : String)
  | Exec (sql : String)
  | Begin
  | First (fileName : String)
  | Create (value : FetchMeta)
  | Save (value : FetchMeta)
  | Commit
  | Rollback
deriving DecidableEq, Repr

/-- Supported DB dialects. -/
def dialectSqlite3 : String := "sqlite3"

/-- Supported DB dialects. -/
def dialectMysql : String := "mysql"

/-! ## MigrateDB -/

/-- What the engine answers during one run of MigrateDB: the error of AutoMigrate and,
by index name, the error of AddIndex (none when the call succeeds). -/
structure MigrateEngine where
  autoMigrate : Option String
  addIndex : String → Option String

/-- The ten entity types handed to AutoMigrate, in the order of the source. -/
def migratedModels : List String :=
  ["FetchMeta", "Root", "Definition", "Package", "Reference", "Advisory", "Cve",
    "Bugzilla", "Cpe", "Debian"]

/-- The ten AddIndex calls of MigrateDB in the order of the source: model, index name,
column. -/
def indexes : List (String × String × String) :=
  [("Definition", "idx_definition_root_id", "root_id"),
   ("Package", "idx_packages_definition_id", "definition_id"),
   ("Package", "idx_packages_name", "name"),
   ("Reference", "idx_reference_definition_id", "definition_id"),
   ("Advisory", "idx_advisories_definition_id", "definition_id"),
   ("Cve", "idx_cves_advisory_id", "advisory_id"),
   ("Bugzilla", "idx_bugzillas_advisory_id", "advisory_id"),
   ("Cpe", "idx_cpes_advisory_id", "advisory_id"),
   ("Debian", "idx_debian_definition_id", "definition_id"),
   ("Debian", "idx_debian_cve_id", "cve_id")]

/-- The engine call of one entry of indexes. -/
def indexCall (ix : String × String × String) : Call :=
  Call.AddIndex ix.1 ix.2.1 ix.2.2

/-- Message of fmt.Errorf("Failed to migrate. err: %s", err). -/
def errMigrate (err : String) : String :=
  "Failed to migrate. err: " ++ err

/-- Message of fmt.Errorf(errMsg, err) with errMsg the one format string
"Failed to create index. err: %s" that every AddIndex branch of MigrateDB uses. -/
def errCreateIndex (err : String) : String :=
  "Failed to create index. err: " ++ err

/-- The chain of AddIndex statements of MigrateDB: each is called in turn, the first
failure returns at once. -/
def addIndexes (eng : MigrateEngine) :
    List (String × String × String) → List Call × Option String
  | [] => ([], none)
  | ix :: rest =>
    match eng.addIndex ix.2.1 with
    | some err => ([indexCall ix], some (errCreateIndex err))
    | none => (indexCall ix :: (addIndexes eng rest).1, (addIndexes eng rest).2)

/-- Base.MigrateDB: the engine calls made, and the error returned. -/
def MigrateDB (eng : MigrateEngine) : List Call × Option String :=
  match eng.autoMigrate with
  | some err => ([Call.AutoMigrate migratedModels], some (errMigrate err))
  | none =>
    (Call.AutoMigrate migratedModels :: (addIndexes eng indexes).1,
      (addIndexes eng indexes).2)

/-! ## OpenDB -/

/-- The fields of c.Conf that OpenDB reads; package config lies outside the verified
sources, so their values are parameters. -/
structure Config where
  DBType : String
  DBPath : String
  DebugSQL : Bool
deriving DecidableEq, Repr

/-- What the engine answers during one call of OpenDB: the error of gorm.Open, the
answers to the migration, the error of the journal-mode Exec. -/
structure OpenEngine where
  openErr : Option String
  migrate : MigrateEngine
  execErr : Option String

/-- Outcome of one OpenDB: the engine calls made, the error returned, the package
variable migrated afterwards, and the result of o.MigrateDB() when it was called
(none when OpenDB did not call it). -/
structure OpenResult where
  calls : List Call
  err : Option String
  migrated : Bool
  migration : Option (Option String)

/-- The error OpenDB makes of a failed gorm.Open. -/
def errOpen (conf : Config) (err : String) : String :=
  if conf.DBType = dialectSqlite3 then
    "Failed to open DB. datafile: " ++ conf.DBPath ++ ", err: " ++ err
  else if conf.DBType = dialectMysql then
    "Failed to open DB, err: " ++ err
  else
    "Invalid database dialect, " ++ conf.DBType

/-- The tail of OpenDB after the migration block: migrated is true, and for sqlite3 the
journal mode is set. -/
def openJournalMode (conf : Config) (eng : OpenEngine) (calls : List Call)
    (migration : Option (Option String)) : OpenResult :=
  if conf.DBType = dialectSqlite3 then
    { calls := calls ++ [Call.Exec "PRAGMA journal_mode=WAL;"], err := eng.execErr,
      migrated := true, migration := migration }
  else
    { calls := calls, err := none, migrated := true, migration := migration }

/-- Base.OpenDB, run with the package variable migrated as given. -/
def OpenDB (conf : Config) (eng : OpenEngine) (migrated : Bool) : OpenResult :=
  match eng.openErr with
  | some err =>
    { calls := [Call.Open conf.DBType conf.DBPath], err := some (errOpen conf err),
      migrated := migrated, migration := none }
  | none =>
    let calls := [Call.Open conf.DBType conf.DBPath, Call.LogMode conf.DebugSQL]
    if !migrated then
      match (MigrateDB eng.migrate).2 with
      | some err =>
        { calls := calls ++ (MigrateDB eng.migrate).1, err := some err,
          migrated := migrated, migration := some (some err) }
      | none =>
        openJournalMode conf eng (calls ++ (MigrateDB eng.migrate).1) (some none)
    else
      openJournalMode conf eng calls none

/-- A sequence of OpenDB calls in one process: the package variable is threaded from one
call to the next. -/
def OpenDBs : List (Config × OpenEngine) → Bool → List OpenResult
  | [], _ => []
  | ce :: rest, migrated =>
    OpenDB ce.1 ce.2 migrated :: OpenDBs rest (OpenDB ce.1 ce.2 migrated).migrated

/-- The results of the MigrateDB runs of a sequence of OpenDB calls, in order. -/
def migrationRuns (rs : List OpenResult) : List (Option String) :=
  rs.filterMap (fun r => r.migration)

/-! ## InsertFetchMeta -/

/-- What the engine answers during one call of InsertFetchMeta: firstErr is an error of
the lookup other than ErrRecordNotFound (whether the record is found is decided by the
table), the others are the errors of Create, Save and Commit; none when the call
succeeds. -/
structure MetaEngine where
  firstErr : Option String
  createErr : Option String
  saveErr : Option String
  commitErr : Option String
deriving DecidableEq, Repr

/-- The engine on which no call fails. -/
def MetaEngine.ok : MetaEngine :=
  { firstErr := none, createErr := none, saveErr := none, commitErr := none }

/-- Outcome of one InsertFetchMeta: the table of FetchMeta records as persisted
afterwards, the error returned, the engine calls made. -/
structure InsertResult where
  rows : List FetchMeta
  err : Option String
  calls : List Call
deriving DecidableEq, Repr

/-- The record with the least primary key (ORDER BY id ASC LIMIT 1). -/
def minByID : List FetchMeta → Option FetchMeta
  | [] => none
  | r :: rs =>
    match minByID rs with
    | none => some r
    | some b => if b.ID < r.ID then some b else some r

/-- The query tx.Where(&models.FetchMeta(FileName: fileName)).First(&oldmeta) on a
table.  A gorm struct condition uses only the fields that are not the zero value of
their type, so an empty file name gives no condition at all; First orders by primary
key and takes one record.  The result none is ErrRecordNotFound. -/
def whereFirst (rows : List FetchMeta) (fileName : String) : Option FetchMeta :=
  minByID (rows.filter (fun r => fileName = "" || r.FileName = fileName))

/-- The primary key the engine gives to a record inserted without one. -/
def nextID (rows : List FetchMeta) : Nat :=
  (rows.map (fun r => r.ID)).foldl max 0 + 1

/-- The error of the engine for an insert whose primary key is taken. -/
def errDuplicateKey : String := "UNIQUE constraint failed: fetch_meta.id"

/-- The INSERT behind gorm Create: a record whose primary key is zero gets the next key,
a record with a key is inserted under it unless the key is taken. -/
def insertRow (rows : List FetchMeta) (value : FetchMeta) : Except String (List FetchMeta) :=
  if value.ID = 0 then
    Except.ok (rows ++ [{ value with ID := nextID rows }])
  else if rows.any (fun r => r.ID = value.ID) then
    Except.error errDuplicateKey
  else
    Except.ok (rows ++ [value])

/-- The call tx.Create(&meta) inside the transaction. -/
def txCreate (eng : MetaEngine) (rows : List FetchMeta) (value : FetchMeta) :
    Except String (List FetchMeta) :=
  match eng.createErr with
  | some err => Except.error err
  | none => insertRow rows value

/-- The call tx.Save(&oldmeta) inside the transaction: gorm Save inserts a value whose
primary key is zero and otherwise updates the record that has this key.  (In
InsertFetchMeta a value with a primary key was read from the table in the same
transaction, so that record exists.) -/
def txSave (eng : MetaEngine) (rows : List FetchMeta) (value : FetchMeta) :
    Except String (List FetchMeta) :=
  match eng.saveErr with
  | some err => Except.error err
  | none =>
    if value.ID = 0 then insertRow rows value
    else Except.ok (rows.map (fun r => if r.ID = value.ID then value else r))

/-- The statements tx.Commit(); return nil that end InsertFetchMeta: the result of
Commit is not looked at.  A commit that fails persists nothing. -/
def txCommit (eng : MetaEngine) (rows tx : List FetchMeta) (calls : List Call) :
    InsertResult :=
  { rows := if eng.commitErr.isSome then rows else tx, err := none,
    calls := calls ++ [Call.Commit] }

/-- Base.InsertFetchMeta on the table rows. -/
def InsertFetchMeta (eng : MetaEngine) (rows : List FetchMeta) (meta : FetchMeta) :
    InsertResult :=
  -- tx := o.DB.Begin(); r := tx.Where(...).First(&oldmeta)
  let calls := [Call.Begin, Call.First meta.FileName]
  let r : Option FetchMeta :=
    match eng.firstErr with
    | some _ => none
    | none => whereFirst rows meta.FileName
  let recordNotFound : Bool := eng.firstErr.isNone && r.isNone
  let oldmeta : FetchMeta := r.getD { ID := 0, Timestamp := 0, FileName := "" }
  if !recordNotFound && oldmeta.Timestamp == meta.Timestamp then
    { rows := rows, err := none, calls := calls }
  else if recordNotFound then
    match txCreate eng rows meta with
    | Except.error err =>
      { rows := rows, err := some ("Failed to insert FetchMeta: " ++ err),
        calls := calls ++ [Call.Create meta, Call.Rollback] }
    | Except.ok tx => txCommit eng rows tx (calls ++ [Call.Create meta])
  else
    let oldmeta := { oldmeta with Timestamp := meta.Timestamp, FileName := meta.FileName }
    match txSave eng rows oldmeta with
    | Except.error err =>
      { rows := rows, err := some ("Failed to update FetchMeta: " ++ err),
        calls := calls ++ [Call.Save oldmeta, Call.Rollback] }
    | Except.ok tx => txCommit eng rows tx (calls ++ [Call.Save oldmeta])

/-- The records of a table that carry the file name f. -/
def recordsFor (rows : List FetchMeta) (f : String) : List FetchMeta :=
  rows.filter (fun r => r.FileName = f)

/-- The FetchMeta invariant: at most one record per file name. -/
def AtMostOnePerFileName (rows : List FetchMeta) : Prop :=
  ∀ f : String, (recordsFor rows f).length ≤ 1

/-- Integrity of the primary key of a table: the keys are distinct and none is zero. -/
def PrimaryKey (rows : List FetchMeta) : Prop :=
  (rows.map (fun r => r.ID)).Nodup ∧ ∀ r ∈ rows, r.ID ≠ 0

/-- The calls of a trace that finish a transaction. -/
def finishes (calls : List Call) : List Call :=
  calls.filter (fun c => c = Call.Commit || c = Call.Rollback)

/-! ## Concrete engines used at concrete inputs -/

/-- A migration engine on which every call succeeds. -/
def migrateOk : MigrateEngine :=
  { autoMigrate := none, addIndex := fun _ => none }

/-- A migration engine on which the creation of the index called name fails with err
and every other call succeeds. -/
def failingIndex (name err : String) : MigrateEngine :=
  { autoMigrate := none, addIndex := fun n => if n = name then some err else none }

/-- A migration engine on which AutoMigrate fails with err. -/
def failingAutoMigrate (err : String) : MigrateEngine :=
  { autoMigrate := some err, addIndex := fun _ => none }

/-- An engine for OpenDB on which the connection opens and the journal-mode statement
succeeds, with the given answers to the migration. -/
def opening (m : MigrateEngine) : OpenEngine :=
  { openErr := none, migrate := m, execErr := none }

/-- An engine for OpenDB on which gorm.Open fails with err. -/
def notOpening (err : String) : OpenEngine :=
  { openErr := some err, migrate := migrateOk, execErr := none }

/-- The default configuration of the server command: sqlite3 and a data file. -/
def sqliteConf : Config :=
  { DBType := "sqlite3", DBPath := "/var/oval.sqlite3", DebugSQL := false }

/-- A configuration with a dialect other than sqlite3 and mysql. -/
def postgresConf : Config :=
  { DBType := "postgres", DBPath := "host=db user=oval", DebugSQL := false }

/-- An engine that keeps the lock of a transaction until the transaction is committed
or rolled back, seen by the InsertFetchMeta that follows a call with the trace previous:
when previous began a transaction and finished none, the writes Create and Save are
refused with "database is locked"; otherwise nothing fails. -/
def lockingEngine (previous : List Call) : MetaEngine :=
  if Call.Begin ∈ previous ∧ finishes previous = [] then
    { MetaEngine.ok with
      createErr := some "database is locked", saveErr := some "database is locked" }
  else MetaEngine.ok

/-! ## Theorems: NewDB -/

theorem susesFound_iff (names : List String) (family : String) :
    susesFound names family = true ↔ family ∈ names := by
  unfold susesFound
  suffices h : ∀ b, names.foldl (fun found name => if name = family then true else found) b
      = true ↔ (b = true ∨ family ∈ names) by simpa using h false
  induction names with
  | nil => simp
  | cons x xs ih =>
    intro b
    simp only [List.foldl_cons, ih, List.mem_cons]
    by_cases hx : x = family
    · simp [hx]
    · have : ¬ family = x := fun h => hx h.symm
      simp [hx, this]

theorem isInfix_self {α : Type} (v : List α) : v <:+: v :=
  ⟨[], [], by simp⟩

theorem isInfix_mid {α : Type} (a v b : List α) : v <:+: a ++ (v ++ b) :=
  ⟨a, b, by simp⟩

theorem isInfix_append_left {α : Type} {v l : List α} (p : List α) (h : v <:+: l) :
    v <:+: p ++ l := by
  obtain ⟨s, t, rfl⟩ := h
  exact ⟨p ++ s, t, by simp⟩

theorem errUnknownSUSE_suses (c : FamilyNames) (family : String) :
    errUnknownSUSE (suses c) family =
      "Unknown SUSE. Specify from [" ++ c.OpenSUSE ++ " " ++ c.OpenSUSELeap ++ " " ++
        c.SUSEEnterpriseServer ++ " " ++ c.SUSEEnterpriseDesktop ++ " " ++
        c.SUSEOpenstackCloud ++ "]: " ++ family := by
  apply String.ext
  simp [errUnknownSUSE, fmtStrings, suses, String.intercalate, String.intercalate.go,
    String.data_append]

theorem errUnknownOSType_ne (family : String) (names : List String) (g : String) :
    errUnknownOSType family ≠ errUnknownSUSE names g := by
  intro h
  have h2 := congrArg String.data h
  simp [errUnknownOSType, errUnknownSUSE, String.data_append] at h2

/-- C4: a family that contains "suse", is none of the four top-level families and none
of the five allow-listed SUSE names gets no driver and the unknown-SUSE error, whose
message is "Unknown SUSE. Specify from [v1 v2 v3 v4 v5]: family": it lists the five
allow-listed names and the rejected family. -/
theorem NewDB_unknown_suse (c : FamilyNames) (family : String)
    (hsuse : stringsContains family "suse" = true)
    (hD : family ≠ c.Debian) (hU : family ≠ c.Ubuntu) (hR : family ≠ c.RedHat)
    (hO : family ≠ c.Oracle) (hnot : family ∉ suses c) :
    NewDB c family = (none, some (errUnknownSUSE (suses c) family)) ∧
    errUnknownSUSE (suses c) family =
      "Unknown SUSE. Specify from [" ++ c.OpenSUSE ++ " " ++ c.OpenSUSELeap ++ " " ++
        c.SUSEEnterpriseServer ++ " " ++ c.SUSEEnterpriseDesktop ++ " " ++
        c.SUSEOpenstackCloud ++ "]: " ++ family ∧
    (∀ v ∈ suses c, v.data <:+: (errUnknownSUSE (suses c) family).data) ∧
    family.data <:+: (errUnknownSUSE (suses c) family).data := by
  have hfound : susesFound (suses c) family = false := by
    cases h : susesFound (suses c) family with
    | false => rfl
    | true => exact absurd ((susesFound_iff _ _).1 h) hnot
  refine ⟨?_, errUnknownSUSE_suses c family, ?_, ?_⟩
  · simp [NewDB, hD, hU, hR, hO, hsuse, hfound]
  · intro v hv
    rw [errUnknownSUSE_suses]
    simp only [suses, List.mem_cons, List.mem_singleton, List.not_mem_nil, or_false] at hv
    simp only [String.data_append, List.append_assoc]
    rcases hv with rfl | rfl | rfl | rfl | rfl <;>
      repeat (first | exact isInfix_mid _ _ _ | apply isInfix_append_left)
  · simp only [errUnknownSUSE, String.data_append, List.append_assoc]
    repeat (first | exact isInfix_self _ | apply isInfix_append_left)

/-- C4 at the input "suse-unknown-flavor" with the example constants. -/
theorem NewDB_unknown_suse_witness :
    NewDB exampleNames "suse-unknown-flavor" =
      (none, some (errUnknownSUSE (suses exampleNames) "suse-unknown-flavor")) :=
  (NewDB_unknown_suse exampleNames "suse-unknown-flavor" (by decide) (by decide) (by decide)
    (by decide) (by decide) (by decide)).1

/-- C5: a family that is none of the four top-level families and does not contain
"suse" gets no driver and the error "Unknown OS Type: family", which is never the
unknown-SUSE error. -/
theorem NewDB_unknown_family (c : FamilyNames) (family : String)
    (hD : family ≠ c.Debian) (hU : family ≠ c.Ubuntu) (hR : family ≠ c.RedHat)
    (hO : family ≠ c.Oracle) (hsuse : stringsContains family "suse" = false) :
    NewDB c family = (none, some ("Unknown OS Type: " ++ family)) ∧
    ∀ (names : List String) (g : String),
      (NewDB c family).2 ≠ some (errUnknownSUSE names g) := by
  have h : NewDB c family = (none, some (errUnknownOSType family)) := by
    simp [NewDB, hD, hU, hR, hO, hsuse]
  refine ⟨h, ?_⟩
  intro names g hg
  rw [h] at hg
  exact errUnknownOSType_ne family names g (Option.some.inj hg)

/-- C5 at the input "centos" with the example constants. -/
theorem NewDB_unknown_family_witness :
    NewDB exampleNames "centos" = (none, some ("Unknown OS Type: " ++ "centos")) :=
  (NewDB_unknown_family exampleNames "centos" (by decide) (by decide) (by decide)
    (by decide) (by decide)).1

/-- C6: with the four top-level constants pairwise different (Go rejects a switch with
a repeated constant case), each of them gets its own driver and a nil error, whatever
else the identifier contains, and a family that contains "suse", is one of the five
allow-listed names and none of the four top-level constants gets the SUSE driver made
from exactly that family, with a nil error. -/
theorem NewDB_valid (c : FamilyNames)
    (hdistinct : [c.Debian, c.Ubuntu, c.RedHat, c.Oracle].Nodup) :
    NewDB c c.Debian = (some OvalDB.NewDebian, none) ∧
    NewDB c c.Ubuntu = (some OvalDB.NewUbuntu, none) ∧
    NewDB c c.RedHat = (some OvalDB.NewRedHat, none) ∧
    NewDB c c.Oracle = (some OvalDB.NewOracle, none) ∧
    ∀ family : String, stringsContains family "suse" = true → family ∈ suses c →
      family ∉ [c.Debian, c.Ubuntu, c.RedHat, c.Oracle] →
      NewDB c family = (some (OvalDB.NewSUSE family), none) := by
  simp only [List.nodup_cons, List.mem_cons, List.mem_singleton, List.not_mem_nil,
    or_false, not_or, List.nodup_nil, and_true] at hdistinct
  obtain ⟨⟨hDU, hDR, hDO⟩, ⟨hUR, hUO⟩, hRO, -⟩ := hdistinct
  refine ⟨?_, ?_, ?_, ?_, ?_⟩
  · simp [NewDB]
  · simp [NewDB, Ne.symm hDU]
  · simp [NewDB, Ne.symm hDR, Ne.symm hUR]
  · simp [NewDB, Ne.symm hDO, Ne.symm hUO, Ne.symm hRO]
  · intro family hsuse hmem hnot
    simp only [List.mem_cons, List.mem_singleton, List.not_mem_nil, or_false, not_or]
      at hnot
    obtain ⟨hD, hU, hR, hO⟩ := hnot
    have hfound : susesFound (suses c) family = true := (susesFound_iff _ _).2 hmem
    simp [NewDB, hD, hU, hR, hO, hsuse, hfound]

/-- C6 at the example constants: the four top-level families and the allow-listed
family "suse.linux.enterprise.desktop". -/
theorem NewDB_valid_witness :
    NewDB exampleNames "debian" = (some OvalDB.NewDebian, none) ∧
    NewDB exampleNames "ubuntu" = (some OvalDB.NewUbuntu, none) ∧
    NewDB exampleNames "redhat" = (some OvalDB.NewRedHat, none) ∧
    NewDB exampleNames "oracle" = (some OvalDB.NewOracle, none) ∧
    NewDB exampleNames "suse.linux.enterprise.desktop" =
      (some (OvalDB.NewSUSE "suse.linux.enterprise.desktop"), none) :=
  have h := NewDB_valid exampleNames (by decide)
  ⟨h.1, h.2.1, h.2.2.1, h.2.2.2.1,
    h.2.2.2.2 "suse.linux.enterprise.desktop" (by decide) (by decide) (by decide)⟩

/-! ## Theorems: MigrateDB -/

theorem addIndexes_fail (eng : MigrateEngine) (l : List (String × String × String)) :
    ∀ (k : Nat) (ix : String × String × String) (e : String), l[k]? = some ix →
      (∀ jx ∈ l.take k, eng.addIndex jx.2.1 = none) → eng.addIndex ix.2.1 = some e →
      addIndexes eng l = ((l.take (k + 1)).map indexCall, some (errCreateIndex e)) := by
  induction l with
  | nil => intro k ix e hk; simp at hk
  | cons x xs ih =>
    intro k ix e hk hpre hfail
    cases k with
    | zero =>
      simp only [List.getElem?_cons_zero, Option.some.injEq] at hk
      subst hk
      simp [addIndexes, hfail]
    | succ k =>
      simp only [List.getElem?_cons_succ] at hk
      have hx : eng.addIndex x.2.1 = none := hpre x (by simp)
      have hrest := ih k ix e hk (fun jx hj => hpre jx (by simp [hj])) hfail
      simp [addIndexes, hx, hrest]

/-- C8 (amended): a failing step stops MigrateDB at once and its error is wrapped.  When
AutoMigrate fails with e, it is the only engine call and the result is
"Failed to migrate. err: e".  When AutoMigrate and the index creations before the one
at position k succeed and that one fails with e, the calls are AutoMigrate and the
first k+1 index creations, and the result is "Failed to create index. err: e": the error
tells a failed index creation from a failed auto-migration and carries the engine
error, and it does not depend on which index failed. -/
theorem MigrateDB_stops_at_failure (eng : MigrateEngine) :
    (∀ e : String, eng.autoMigrate = some e →
      MigrateDB eng =
        ([Call.AutoMigrate migratedModels], some ("Failed to migrate. err: " ++ e))) ∧
    (∀ (k : Nat) (ix : String × String × String) (e : String),
      eng.autoMigrate = none → indexes[k]? = some ix →
      (∀ jx ∈ indexes.take k, eng.addIndex jx.2.1 = none) →
      eng.addIndex ix.2.1 = some e →
      MigrateDB eng =
        (Call.AutoMigrate migratedModels :: (indexes.take (k + 1)).map indexCall,
          some ("Failed to create index. err: " ++ e))) := by
  constructor
  · intro e he
    simp [MigrateDB, he, errMigrate]
  · intro k ix e hauto hk hpre hfail
    have h := addIndexes_fail eng indexes k ix e hk hpre hfail
    simp [MigrateDB, hauto, h, errCreateIndex]

/-- C8 (amended) at a concrete engine: the third index creation, idx_packages_name,
fails with "disk full". -/
theorem MigrateDB_stops_at_failure_witness :
    MigrateDB (failingIndex "idx_packages_name" "disk full") =
      (Call.AutoMigrate migratedModels :: (indexes.take (2 + 1)).map indexCall,
        some ("Failed to create index. err: " ++ "disk full")) :=
  (MigrateDB_stops_at_failure (failingIndex "idx_packages_name" "disk full")).2 2
    ("Package", "idx_packages_name", "name") "disk full" rfl (by decide) (by decide)
    (by decide)

/-- C8 as stated fails: the creation of idx_packages_name and the creation of
idx_debian_cve_id failing with the same engine error yield the same error value, which
names neither index. -/
theorem MigrateDB_index_errors_coincide :
    "idx_packages_name" ≠ "idx_debian_cve_id" ∧
    (MigrateDB (failingIndex "idx_packages_name" "disk full")).2 =
      some "Failed to create index. err: disk full" ∧
    (MigrateDB (failingIndex "idx_debian_cve_id" "disk full")).2 =
      some "Failed to create index. err: disk full" := by
  decide

/-! ## Theorems: OpenDB -/

theorem openJournalMode_migrated (conf : Config) (eng : OpenEngine) (calls : List Call)
    (mg : Option (Option String)) :
    (openJournalMode conf eng calls mg).migrated = true ∧
    (openJournalMode conf eng calls mg).migration = mg := by
  unfold openJournalMode
  split <;> simp

/-- One OpenDB calls MigrateDB exactly when the connection opens and migrated is false;
migrated is true afterwards exactly when it was true before or that run succeeded. -/
theorem OpenDB_migration (conf : Config) (eng : OpenEngine) (m : Bool) :
    (OpenDB conf eng m).migration =
      (if m = false ∧ eng.openErr = none then some (MigrateDB eng.migrate).2 else none) ∧
    (OpenDB conf eng m).migrated =
      (m || (eng.openErr.isNone && (MigrateDB eng.migrate).2.isNone)) := by
  unfold OpenDB
  cases hopen : eng.openErr with
  | some e => simp
  | none =>
    cases m with
    | true => simp [openJournalMode_migrated]
    | false =>
      cases hmig : (MigrateDB eng.migrate).2 with
      | some e => simp
      | none => simp [openJournalMode_migrated]

theorem migrationRuns_cons (r : OpenResult) (rs : List OpenResult) :
    migrationRuns (r :: rs) =
      (match r.migration with
       | some x => x :: migrationRuns rs
       | none => migrationRuns rs) := by
  unfold migrationRuns
  cases h : r.migration <;> simp [List.filterMap_cons, h]

theorem OpenDBs_runs (calls : List (Config × OpenEngine)) :
    ∀ m : Bool,
      (m = true → migrationRuns (OpenDBs calls m) = []) ∧
      (∀ r ∈ (migrationRuns (OpenDBs calls m)).dropLast, r ≠ none) ∧
      ((migrationRuns (OpenDBs calls m)).filter (fun r => r.isNone)).length ≤ 1 := by
  induction calls with
  | nil => intro m; simp [OpenDBs, migrationRuns]
  | cons ce rest ih =>
    intro m
    obtain ⟨hmg, hfl⟩ := OpenDB_migration ce.1 ce.2 m
    simp only [OpenDBs, migrationRuns_cons]
    cases m with
    | true =>
      have hfl2 : (OpenDB ce.1 ce.2 true).migrated = true := by simpa using hfl
      have hmg2 : (OpenDB ce.1 ce.2 true).migration = none := by simpa using hmg
      rw [hmg2, hfl2]
      exact ih true
    | false =>
      cases hopen : ce.2.openErr with
      | some e =>
        have hfl2 : (OpenDB ce.1 ce.2 false).migrated = false := by simpa [hopen] using hfl
        have hmg2 : (OpenDB ce.1 ce.2 false).migration = none := by simpa [hopen] using hmg
        rw [hmg2, hfl2]
        exact ih false
      | none =>
        cases hres : (MigrateDB ce.2.migrate).2 with
        | none =>
          have hfl2 : (OpenDB ce.1 ce.2 false).migrated = true := by
            simpa [hopen, hres] using hfl
          have hmg2 : (OpenDB ce.1 ce.2 false).migration = some none := by
            simpa [hopen, hres] using hmg
          rw [hmg2, hfl2]
          simp [(ih true).1 rfl]
        | some e =>
          have hfl2 : (OpenDB ce.1 ce.2 false).migrated = false := by
            simpa [hopen, hres] using hfl
          have hmg2 : (OpenDB ce.1 ce.2 false).migration = some (some e) := by
            simpa [hopen, hres] using hmg
          rw [hmg2, hfl2]
          refine ⟨by simp, ?_, ?_⟩
          · intro r hr
            have hr2 := List.mem_of_mem_dropLast hr
            cases hrs : migrationRuns (OpenDBs rest false) with
            | nil => simp [hrs] at hr
            | cons y ys =>
              simp only [hrs, List.dropLast_cons₂, List.mem_cons] at hr
              rcases hr with rfl | hr
              · simp
              · exact (ih false).2.1 r (by simpa [hrs] using hr)
          · simpa using (ih false).2.2

/-- The first engine call of OpenDB is gorm.Open. -/
theorem OpenDB_calls_head (conf : Config) (eng : OpenEngine) (m : Bool) :
    (OpenDB conf eng m).calls.head? = some (Call.Open conf.DBType conf.DBPath) := by
  unfold OpenDB
  by_cases hd : conf.DBType = dialectSqlite3
  · cases eng.openErr <;> cases m <;> cases (MigrateDB eng.migrate).2 <;>
      simp [openJournalMode, hd]
  · cases eng.openErr <;> cases m <;> cases (MigrateDB eng.migrate).2 <;>
      simp [openJournalMode, hd]

/-- C3 (amended): in every sequence of OpenDB calls that starts with migrated = false,
an OpenDB calls MigrateDB exactly when its connection opens and migrated is still
false, and migrated becomes true only through a MigrateDB run that succeeds.  So every
run before the last one failed, at most one run succeeds, and a first run that succeeds
is the only run. -/
theorem OpenDBs_migrates_until_success (calls : List (Config × OpenEngine)) :
    (∀ r ∈ (migrationRuns (OpenDBs calls false)).dropLast, r ≠ none) ∧
    ((migrationRuns (OpenDBs calls false)).filter (fun r => r.isNone)).length ≤ 1 ∧
    ((migrationRuns (OpenDBs calls false)).head? = some none →
      (migrationRuns (OpenDBs calls false)).length = 1) ∧
    (∀ (conf : Config) (eng : OpenEngine) (m : Bool),
      (OpenDB conf eng m).migration =
        (if m = false ∧ eng.openErr = none then some (MigrateDB eng.migrate).2
         else none)) ∧
    (∀ (conf : Config) (eng : OpenEngine) (m : Bool),
      (OpenDB conf eng m).migrated =
        (m || (eng.openErr.isNone && (MigrateDB eng.migrate).2.isNone))) := by
  obtain ⟨-, hlast, hcount⟩ := OpenDBs_runs calls false
  refine ⟨hlast, hcount, ?_, fun conf eng m => (OpenDB_migration conf eng m).1,
    fun conf eng m => (OpenDB_migration conf eng m).2⟩
  intro hhead
  cases hrs : migrationRuns (OpenDBs calls false) with
  | nil => simp [hrs] at hhead
  | cons x xs =>
    cases xs with
    | nil => simp
    | cons y ys =>
      rw [hrs] at hhead hlast
      simp only [List.head?_cons, Option.some.injEq] at hhead
      exact absurd hhead (hlast x (by simp))

/-- C3 (amended) at a concrete sequence: three OpenDB calls on sqlite3 with an engine
that never fails run MigrateDB once, in the first call. -/
theorem OpenDBs_migrates_until_success_witness :
    (migrationRuns (OpenDBs [(sqliteConf, opening migrateOk),
      (sqliteConf, opening migrateOk), (sqliteConf, opening migrateOk)] false)).length
      = 1 :=
  (OpenDBs_migrates_until_success [(sqliteConf, opening migrateOk),
    (sqliteConf, opening migrateOk), (sqliteConf, opening migrateOk)]).2.2.1 (by decide)

/-- C3 as stated fails: when the migration of the first OpenDB fails, migrated stays
false and the second OpenDB runs MigrateDB again, so two OpenDB calls run it twice
(AutoMigrate is called twice). -/
theorem OpenDBs_migrates_twice :
    migrationRuns (OpenDBs [(sqliteConf, opening (failingAutoMigrate "disk full")),
      (sqliteConf, opening migrateOk)] false) =
      [some "Failed to migrate. err: disk full", none] ∧
    (((OpenDBs [(sqliteConf, opening (failingAutoMigrate "disk full")),
      (sqliteConf, opening migrateOk)] false).map (fun r => r.calls)).flatten.count
        (Call.AutoMigrate migratedModels)) = 2 := by
  decide

/-- C7 (amended): the first engine call of every OpenDB is gorm.Open with the
configured dialect and path, whatever the dialect.  When the dialect is neither
"sqlite3" nor "mysql" and that open fails, OpenDB makes no other engine call and
returns "Invalid database dialect, " followed by the dialect, leaving migrated as it
was. -/
theorem OpenDB_invalid_dialect (conf : Config) (eng : OpenEngine) (migrated : Bool)
    (e : String) (hsqlite : conf.DBType ≠ "sqlite3") (hmysql : conf.DBType ≠ "mysql")
    (hopen : eng.openErr = some e) :
    (OpenDB conf eng migrated).calls = [Call.Open conf.DBType conf.DBPath] ∧
    (OpenDB conf eng migrated).err = some ("Invalid database dialect, " ++ conf.DBType) ∧
    (OpenDB conf eng migrated).migrated = migrated ∧
    ∀ (eng2 : OpenEngine) (m : Bool),
      (OpenDB conf eng2 m).calls.head? = some (Call.Open conf.DBType conf.DBPath) := by
  refine ⟨?_, ?_, ?_, ?_⟩
  · simp [OpenDB, hopen]
  · simp [OpenDB, hopen, errOpen, dialectSqlite3, dialectMysql, hsqlite, hmysql]
  · simp [OpenDB, hopen]
  · intro eng2 m
    exact OpenDB_calls_head conf eng2 m

/-- C7 (amended) at the dialect "postgres", for which gorm.Open fails. -/
theorem OpenDB_invalid_dialect_witness :
    (OpenDB postgresConf (notOpening "sql: unknown driver") false).err =
      some ("Invalid database dialect, " ++ postgresConf.DBType) :=
  (OpenDB_invalid_dialect postgresConf (notOpening "sql: unknown driver") false
    "sql: unknown driver" (by decide) (by decide) rfl).2.1

/-- C7 as stated fails: for the dialect "postgres" the invalid-dialect error is
returned, but gorm.Open has been invoked with that dialect before. -/
theorem OpenDB_opens_before_dialect_error :
    (OpenDB postgresConf (notOpening "sql: unknown driver") false).err =
      some "Invalid database dialect, postgres" ∧
    Call.Open "postgres" "host=db user=oval" ∈
      (OpenDB postgresConf (notOpening "sql: unknown driver") false).calls := by
  decide

/-! ## Theorems: InsertFetchMeta -/

theorem minByID_mem (l : List FetchMeta) (r : FetchMeta) (h : minByID l = some r) :
    r ∈ l := by
  induction l generalizing r with
  | nil => simp [minByID] at h
  | cons x xs ih =>
    simp only [minByID] at h
    cases hm : minByID xs with
    | none =>
      simp only [hm, Option.some.injEq] at h
      simp [h]
    | some b =>
      simp only [hm] at h
      by_cases hlt : b.ID < x.ID
      · simp only [hlt, if_true, Option.some.injEq] at h
        subst h
        exact List.mem_cons_of_mem _ (ih b hm)
      · simp only [hlt, if_false, Option.some.injEq] at h
        simp [h]

theorem minByID_none (l : List FetchMeta) (h : minByID l = none) : l = [] := by
  cases l with
  | nil => rfl
  | cons x xs =>
    simp only [minByID] at h
    cases hm : minByID xs with
    | none => simp [hm] at h
    | some b =>
      simp only [hm] at h
      by_cases hlt : b.ID < x.ID <;> simp [hlt] at h

/-- With a file name that is not empty the lookup is a lookup by file name. -/
theorem whereFirst_eq (rows : List FetchMeta) (f : String) (hf : f ≠ "") :
    whereFirst rows f = minByID (recordsFor rows f) := by
  simp [whereFirst, recordsFor, hf]

theorem recordsFor_cases (rows : List FetchMeta) (f : String)
    (hinv : AtMostOnePerFileName rows) :
    recordsFor rows f = [] ∨ ∃ r, recordsFor rows f = [r] := by
  have h := hinv f
  cases hr : recordsFor rows f with
  | nil => exact Or.inl rfl
  | cons x xs =>
    cases xs with
    | nil => exact Or.inr ⟨x, rfl⟩
    | cons y ys => simp [hr] at h

theorem recordsFor_mem (rows : List FetchMeta) (f : String) (r : FetchMeta)
    (h : r ∈ recordsFor rows f) : r ∈ rows ∧ r.FileName = f := by
  simpa [recordsFor] using h

theorem le_foldl_max (l : List Nat) : ∀ a : Nat, a ≤ l.foldl max a ∧ ∀ x ∈ l, x ≤ l.foldl max a := by
  induction l with
  | nil => intro a; simp
  | cons y ys ih =>
    intro a
    simp only [List.foldl_cons, List.mem_cons]
    obtain ⟨h1, h2⟩ := ih (max a y)
    refine ⟨le_trans (le_max_left a y) h1, ?_⟩
    intro x hx
    rcases hx with rfl | hx
    · exact le_trans (le_max_right a x) h1
    · exact h2 x hx

theorem lt_nextID (rows : List FetchMeta) (r : FetchMeta) (h : r ∈ rows) :
    r.ID < nextID rows := by
  unfold nextID
  have := (le_foldl_max (rows.map (fun r => r.ID)) 0).2 r.ID (List.mem_map_of_mem _ h)
  omega

theorem nextID_pos (rows : List FetchMeta) : nextID rows ≠ 0 := by
  unfold nextID; omega

theorem PrimaryKey_append (rows : List FetchMeta) (v : FetchMeta) (hpk : PrimaryKey rows)
    (h0 : v.ID ≠ 0) (hfresh : ∀ r ∈ rows, r.ID ≠ v.ID) : PrimaryKey (rows ++ [v]) := by
  obtain ⟨hnd, hnz⟩ := hpk
  constructor
  · rw [List.map_append, List.nodup_append]
    refine ⟨hnd, by simp, ?_⟩
    intro a ha hb
    simp only [List.map_cons, List.map_nil, List.mem_singleton] at hb
    obtain ⟨r, hr, rfl⟩ := List.mem_map.1 ha
    exact hfresh r hr hb
  · intro r hr
    rcases List.mem_append.1 hr with h | h
    · exact hnz r h
    · simp only [List.mem_singleton] at h
      subst h; exact h0

theorem insertRow_ok (rows : List FetchMeta) (v : FetchMeta) (tx : List FetchMeta)
    (h : insertRow rows v = Except.ok tx) :
    ∃ id, id ≠ 0 ∧ (∀ r ∈ rows, r.ID ≠ id) ∧ (v.ID = 0 → id = nextID rows) ∧
      tx = rows ++ [{ v with ID := id }] := by
  unfold insertRow at h
  by_cases h0 : v.ID = 0
  · simp only [h0, if_true, Except.ok.injEq] at h
    refine ⟨nextID rows, nextID_pos rows, ?_, fun _ => rfl, h.symm⟩
    intro r hr
    exact Nat.ne_of_lt (lt_nextID rows r hr)
  · simp only [h0, if_false] at h
    by_cases hany : rows.any (fun r => decide (r.ID = v.ID)) = true
    · simp [hany] at h
    · have hfalse : rows.any (fun r => decide (r.ID = v.ID)) = false := by
        simpa using hany
      rw [hfalse] at h
      simp only [Bool.false_eq_true, if_false, Except.ok.injEq] at h
      refine ⟨v.ID, h0, ?_, fun h => absurd h h0, h.symm⟩
      intro r hr heq
      exact hany (List.any_eq_true.2 ⟨r, hr, by simp [heq]⟩)

theorem PrimaryKey_inj (rows : List FetchMeta) (hpk : PrimaryKey rows) (x y : FetchMeta)
    (hx : x ∈ rows) (hy : y ∈ rows) (h : x.ID = y.ID) : x = y :=
  List.inj_on_of_nodup_map hpk.1 hx hy h

theorem PrimaryKey_update (rows : List FetchMeta) (v : FetchMeta) (hpk : PrimaryKey rows) :
    PrimaryKey (rows.map (fun x => if x.ID = v.ID then v else x)) := by
  obtain ⟨hnd, hnz⟩ := hpk
  have hid : ∀ x : FetchMeta, (if x.ID = v.ID then v else x).ID = x.ID := by
    intro x
    by_cases hx : x.ID = v.ID <;> simp [hx]
  constructor
  · rw [List.map_map]
    have : ((fun r => r.ID) ∘ fun x => if x.ID = v.ID then v else x)
        = (fun r : FetchMeta => r.ID) := by
      funext x; exact hid x
    rw [this]; exact hnd
  · intro r hr
    obtain ⟨x, hx, rfl⟩ := List.mem_map.1 hr
    rw [hid x]; exact hnz x hx

theorem recordsFor_update (rows : List FetchMeta) (r v : FetchMeta) (hpk : PrimaryKey rows)
    (hr : r ∈ rows) (hid : v.ID = r.ID) (hname : v.FileName = r.FileName) (g : String) :
    recordsFor (rows.map (fun x => if x.ID = v.ID then v else x)) g =
      (recordsFor rows g).map (fun x => if x.ID = v.ID then v else x) := by
  unfold recordsFor
  rw [List.filter_map]
  congr 1
  apply List.filter_congr
  intro x hx
  by_cases hx2 : x.ID = v.ID
  · have hxr : x = r := PrimaryKey_inj rows hpk x r hx hr (hx2.trans hid)
    subst hxr
    simp [hx2, hname]
  · simp [hx2]

theorem recordsFor_append (rows : List FetchMeta) (v : FetchMeta) (g : String) :
    recordsFor (rows ++ [v]) g =
      recordsFor rows g ++ (if v.FileName = g then [v] else []) := by
  unfold recordsFor
  rw [List.filter_append]
  by_cases h : v.FileName = g <;> simp [h]

theorem AtMostOne_append (rows : List FetchMeta) (v : FetchMeta)
    (hinv : AtMostOnePerFileName rows) (hnone : recordsFor rows v.FileName = []) :
    AtMostOnePerFileName (rows ++ [v]) := by
  intro g
  rw [recordsFor_append]
  by_cases h : v.FileName = g
  · subst h; simp [hnone]
  · simpa [h] using hinv g

theorem AtMostOne_update (rows : List FetchMeta) (r v : FetchMeta) (hpk : PrimaryKey rows)
    (hinv : AtMostOnePerFileName rows) (hr : r ∈ rows) (hid : v.ID = r.ID)
    (hname : v.FileName = r.FileName) :
    AtMostOnePerFileName (rows.map (fun x => if x.ID = v.ID then v else x)) := by
  intro g
  rw [recordsFor_update rows r v hpk hr hid hname g, List.length_map]
  exact hinv g

/-- The path of InsertFetchMeta on which the record is found with an equal time
stamp: nothing is written, and the transaction is neither committed nor rolled back. -/
theorem InsertFetchMeta_same (eng : MetaEngine) (rows : List FetchMeta)
    (meta r : FetchMeta) (hfirst : eng.firstErr = none)
    (hfound : whereFirst rows meta.FileName = some r)
    (hts : r.Timestamp = meta.Timestamp) :
    InsertFetchMeta eng rows meta =
      { rows := rows, err := none, calls := [Call.Begin, Call.First meta.FileName] } := by
  simp [InsertFetchMeta, hfirst, hfound, hts]

/-- The path of InsertFetchMeta on which no record is found. -/
theorem InsertFetchMeta_create (eng : MetaEngine) (rows : List FetchMeta)
    (meta : FetchMeta) (hfirst : eng.firstErr = none)
    (hnone : whereFirst rows meta.FileName = none) :
    InsertFetchMeta eng rows meta =
      (match txCreate eng rows meta with
       | Except.error err =>
         { rows := rows, err := some ("Failed to insert FetchMeta: " ++ err),
           calls := [Call.Begin, Call.First meta.FileName, Call.Create meta,
             Call.Rollback] }
       | Except.ok tx =>
         txCommit eng rows tx [Call.Begin, Call.First meta.FileName, Call.Create meta]) := by
  simp [InsertFetchMeta, hfirst, hnone]

/-- The path of InsertFetchMeta on which the record is found with another time
stamp. -/
theorem InsertFetchMeta_update (eng : MetaEngine) (rows : List FetchMeta)
    (meta r : FetchMeta) (hfirst : eng.firstErr = none)
    (hfound : whereFirst rows meta.FileName = some r)
    (hts : r.Timestamp ≠ meta.Timestamp) :
    InsertFetchMeta eng rows meta =
      (match txSave eng rows
          { r with Timestamp := meta.Timestamp, FileName := meta.FileName } with
       | Except.error err =>
         { rows := rows, err := some ("Failed to update FetchMeta: " ++ err),
           calls := [Call.Begin, Call.First meta.FileName,
             Call.Save { r with Timestamp := meta.Timestamp, FileName := meta.FileName },
             Call.Rollback] }
       | Except.ok tx =>
         txCommit eng rows tx [Call.Begin, Call.First meta.FileName,
           Call.Save { r with Timestamp := meta.Timestamp, FileName := meta.FileName }]) := by
  simp [InsertFetchMeta, hfirst, hfound, hts]

/-- The invariant of the table, primary key and at most one record per file name, is
kept by InsertFetchMeta when the file name is not empty and the lookup does not fail. -/
theorem InsertFetchMeta_invariant (eng : MetaEngine) (rows : List FetchMeta)
    (meta : FetchMeta) (hpk : PrimaryKey rows) (hinv : AtMostOnePerFileName rows)
    (hname : meta.FileName ≠ "") (hfirst : eng.firstErr = none) :
    PrimaryKey (InsertFetchMeta eng rows meta).rows ∧
    AtMostOnePerFileName (InsertFetchMeta eng rows meta).rows := by
  have hwf := whereFirst_eq rows meta.FileName hname
  rcases recordsFor_cases rows meta.FileName hinv with hnone | ⟨r, hone⟩
  · -- no record: Create
    rw [hnone] at hwf
    rw [InsertFetchMeta_create eng rows meta hfirst (by simpa [minByID] using hwf)]
    cases hc : txCreate eng rows meta with
    | error err => exact ⟨hpk, hinv⟩
    | ok tx =>
      simp only [txCommit]
      cases hcommit : eng.commitErr.isSome with
      | true => exact ⟨hpk, hinv⟩
      | false =>
        have hins : insertRow rows meta = Except.ok tx := by
          unfold txCreate at hc
          cases hce : eng.createErr with
          | some e => simp [hce] at hc
          | none => simpa [hce] using hc
        obtain ⟨id, hid0, hfresh, -, rfl⟩ := insertRow_ok rows meta tx hins
        simp only [Bool.false_eq_true, if_false]
        exact ⟨PrimaryKey_append rows _ hpk hid0 hfresh,
          AtMostOne_append rows _ hinv hnone⟩
  · -- one record r
    have hrmem : r ∈ recordsFor rows meta.FileName := by simp [hone]
    obtain ⟨hr, hrname⟩ := recordsFor_mem rows meta.FileName r hrmem
    rw [hone] at hwf
    have hfound : whereFirst rows meta.FileName = some r := by simpa [minByID] using hwf
    by_cases hts : r.Timestamp = meta.Timestamp
    · rw [InsertFetchMeta_same eng rows meta r hfirst hfound hts]
      exact ⟨hpk, hinv⟩
    · rw [InsertFetchMeta_update eng rows meta r hfirst hfound hts]
      have hr0 : r.ID ≠ 0 := hpk.2 r hr
      cases hse : eng.saveErr with
      | some e => simp only [txSave, hse]; exact ⟨hpk, hinv⟩
      | none =>
        simp only [txSave, hse, hr0, if_false, txCommit]
        cases hcommit : eng.commitErr.isSome with
        | true => exact ⟨hpk, hinv⟩
        | false =>
          simp only [Bool.false_eq_true, if_false]
          exact ⟨PrimaryKey_update rows
              { r with Timestamp := meta.Timestamp, FileName := meta.FileName } hpk,
            AtMostOne_update rows r
              { r with Timestamp := meta.Timestamp, FileName := meta.FileName } hpk hinv hr
              rfl hrname.symm⟩

theorem AtMostOne_of_nodup (rows : List FetchMeta)
    (h : (rows.map (fun r => r.FileName)).Nodup) : AtMostOnePerFileName rows := by
  induction rows with
  | nil => intro g; simp [recordsFor]
  | cons x xs ih =>
    simp only [List.map_cons, List.nodup_cons, List.mem_map, not_exists, not_and] at h
    obtain ⟨hx, hnd⟩ := h
    intro g
    by_cases hg : x.FileName = g
    · have hnil : recordsFor xs g = [] := by
        unfold recordsFor
        rw [List.filter_eq_nil_iff]
        intro r hr
        have := hx r hr
        simp only [decide_eq_true_eq]
        intro hrg
        exact this (hrg.trans hg.symm)
      have : recordsFor (x :: xs) g = x :: recordsFor xs g := by
        simp [recordsFor, List.filter_cons, hg]
      rw [this, hnil]; simp
    · have : recordsFor (x :: xs) g = recordsFor xs g := by
        simp [recordsFor, List.filter_cons, hg]
      rw [this]; exact ih hnd g

/-- InsertFetchMeta for a file that has no record, the lookup not failing: Create is
called; its error is returned wrapped after a Rollback; otherwise Commit follows and
the new record gets the next primary key. -/
theorem InsertFetchMeta_absent (eng : MetaEngine) (rows : List FetchMeta) (f : String)
    (T : Int) (hf : f ≠ "") (hfirst : eng.firstErr = none)
    (hnone : recordsFor rows f = []) :
    InsertFetchMeta eng rows ⟨0, T, f⟩ =
      (match eng.createErr with
       | some err =>
         { rows := rows, err := some ("Failed to insert FetchMeta: " ++ err),
           calls := [Call.Begin, Call.First f, Call.Create ⟨0, T, f⟩, Call.Rollback] }
       | none =>
         { rows := if eng.commitErr.isSome then rows else rows ++ [⟨nextID rows, T, f⟩],
           err := none,
           calls := [Call.Begin, Call.First f, Call.Create ⟨0, T, f⟩, Call.Commit] }) := by
  have hwf := whereFirst_eq rows f hf
  rw [hnone] at hwf
  have hnf : whereFirst rows (FetchMeta.mk 0 T f).FileName = none := by
    simpa [minByID] using hwf
  rw [InsertFetchMeta_create eng rows ⟨0, T, f⟩ hfirst hnf]
  cases hc : eng.createErr with
  | some err => simp [txCreate, hc]
  | none => simp [txCreate, hc, insertRow, txCommit]

/-- InsertFetchMeta for a file whose one record is r, the lookup not failing.  With the
time stamp of r the call returns nil after the lookup.  With another time stamp Save is
called on r with the new time stamp; its error is returned wrapped after a Rollback;
otherwise Commit follows. -/
theorem InsertFetchMeta_present (eng : MetaEngine) (rows : List FetchMeta) (f : String)
    (T : Int) (r : FetchMeta) (hpk : PrimaryKey rows) (hf : f ≠ "")
    (hfirst : eng.firstErr = none) (hone : recordsFor rows f = [r]) :
    (r.Timestamp = T →
      InsertFetchMeta eng rows ⟨0, T, f⟩ =
        { rows := rows, err := none, calls := [Call.Begin, Call.First f] }) ∧
    (r.Timestamp ≠ T →
      InsertFetchMeta eng rows ⟨0, T, f⟩ =
        (match eng.saveErr with
         | some err =>
           { rows := rows, err := some ("Failed to update FetchMeta: " ++ err),
             calls := [Call.Begin, Call.First f, Call.Save ⟨r.ID, T, f⟩, Call.Rollback] }
         | none =>
           { rows := if eng.commitErr.isSome then rows
               else rows.map (fun x => if x.ID = r.ID then ⟨r.ID, T, f⟩ else x),
             err := none,
             calls := [Call.Begin, Call.First f, Call.Save ⟨r.ID, T, f⟩, Call.Commit] })) := by
  have hwf := whereFirst_eq rows f hf
  have hrmem : r ∈ recordsFor rows f := by simp [hone]
  obtain ⟨hr, -⟩ := recordsFor_mem rows f r hrmem
  rw [hone] at hwf
  have hfound : whereFirst rows (FetchMeta.mk 0 T f).FileName = some r := by
    simpa [minByID] using hwf
  have hr0 : r.ID ≠ 0 := hpk.2 r hr
  constructor
  · intro hts
    exact InsertFetchMeta_same eng rows ⟨0, T, f⟩ r hfirst hfound hts
  · intro hts
    rw [InsertFetchMeta_update eng rows ⟨0, T, f⟩ r hfirst hfound hts]
    cases hs : eng.saveErr with
    | some err => simp [txSave, hs]
    | none => simp [txSave, hs, hr0, txCommit]

/-- The records of a file after its one record r has been saved with a new time
stamp. -/
theorem recordsFor_saved (rows : List FetchMeta) (f : String) (T : Int) (r : FetchMeta)
    (hpk : PrimaryKey rows) (hone : recordsFor rows f = [r]) :
    recordsFor (rows.map (fun x => if x.ID = r.ID then ⟨r.ID, T, f⟩ else x)) f =
      [⟨r.ID, T, f⟩] := by
  have hrmem : r ∈ recordsFor rows f := by simp [hone]
  obtain ⟨hr, hrname⟩ := recordsFor_mem rows f r hrmem
  rw [recordsFor_update rows r ⟨r.ID, T, f⟩ hpk hr rfl hrname.symm f, hone]
  simp
/-- The first InsertFetchMeta for a file name that is not empty, on an engine whose
calls all succeed: it returns nil and leaves exactly one record for the file, with
the time stamp given. -/
theorem InsertFetchMeta_first (eng : MetaEngine) (rows : List FetchMeta) (f : String)
    (T : Int) (hpk : PrimaryKey rows) (hinv : AtMostOnePerFileName rows) (hf : f ≠ "")
    (hfirst : eng.firstErr = none)
    (hw : eng.createErr = none ∧ eng.saveErr = none ∧ eng.commitErr = none) :
    ∃ id : Nat, (InsertFetchMeta eng rows ⟨0, T, f⟩).err = none ∧
      recordsFor (InsertFetchMeta eng rows ⟨0, T, f⟩).rows f = [⟨id, T, f⟩] := by
  obtain ⟨hc, hs, hcm⟩ := hw
  rcases recordsFor_cases rows f hinv with hnone | ⟨r, hone⟩
  · refine ⟨nextID rows, ?_, ?_⟩
    · rw [InsertFetchMeta_absent eng rows f T hf hfirst hnone]; simp [hc]
    · rw [InsertFetchMeta_absent eng rows f T hf hfirst hnone]
      simp [hc, hcm, recordsFor_append, hnone]
  · obtain ⟨hsame, hdiff⟩ := InsertFetchMeta_present eng rows f T r hpk hf hfirst hone
    have hrmem : r ∈ recordsFor rows f := by simp [hone]
    obtain ⟨-, hrname⟩ := recordsFor_mem rows f r hrmem
    refine ⟨r.ID, ?_, ?_⟩
    · by_cases hts : r.Timestamp = T
      · rw [hsame hts]
      · rw [hdiff hts]; simp [hs]
    · by_cases hts : r.Timestamp = T
      · rw [hsame hts]
        simp only [hone]
        cases r with
        | mk id ts fn =>
          simp only at hts hrname
          rw [hts, hrname]
      · rw [hdiff hts]
        simp only [hs, hcm, Option.isSome_none, Bool.false_eq_true, if_false]
        exact recordsFor_saved rows f T r hpk hone

/-- C1 (amended): on a table with an intact primary key and at most one record per file
name, for a file name f that is not empty, in every execution in which no lookup fails
with an engine error.  A first InsertFetchMeta with (f, T) whose engine calls succeed
returns nil and leaves exactly one record for f, with time stamp T.  A second call with
(f, T) returns nil and writes nothing, whatever the engine answers: it calls neither
Create nor Save and the table is as the first call left it.  A third call with (f, T2),
T2 other than T, never makes a second record: it calls Save on that same record (same
primary key) with T2 and never Create, and the one record for f afterwards is that
record, with T2 or still with T.  When Save and Commit succeed the third call returns
nil and the record carries T2; when the engine refuses Save, the third call returns the
wrapped error of the update and leaves the table as it was. -/
theorem InsertFetchMeta_idempotent (rows : List FetchMeta) (f : String) (T T2 : Int)
    (e1 e2 e3 : MetaEngine) (r1 r2 r3 : InsertResult)
    (hpk : PrimaryKey rows) (hinv : AtMostOnePerFileName rows) (hf : f ≠ "")
    (hT : T2 ≠ T)
    (hl1 : e1.firstErr = none) (hl2 : e2.firstErr = none) (hl3 : e3.firstErr = none)
    (hw1 : e1.createErr = none ∧ e1.saveErr = none ∧ e1.commitErr = none)
    (h1 : r1 = InsertFetchMeta e1 rows ⟨0, T, f⟩)
    (h2 : r2 = InsertFetchMeta e2 r1.rows ⟨0, T, f⟩)
    (h3 : r3 = InsertFetchMeta e3 r2.rows ⟨0, T2, f⟩) :
    ∃ id : Nat,
      r1.err = none ∧ recordsFor r1.rows f = [⟨id, T, f⟩] ∧
      r2.err = none ∧ r2.rows = r1.rows ∧
      (∀ v : FetchMeta, Call.Create v ∉ r2.calls ∧ Call.Save v ∉ r2.calls) ∧
      recordsFor r2.rows f = [⟨id, T, f⟩] ∧
      Call.Save ⟨id, T2, f⟩ ∈ r3.calls ∧ (∀ v : FetchMeta, Call.Create v ∉ r3.calls) ∧
      (recordsFor r3.rows f = [⟨id, T2, f⟩] ∨ recordsFor r3.rows f = [⟨id, T, f⟩]) ∧
      (e3.saveErr = none → e3.commitErr = none →
        r3.err = none ∧ recordsFor r3.rows f = [⟨id, T2, f⟩]) ∧
      (∀ err : String, e3.saveErr = some err →
        r3.err = some ("Failed to update FetchMeta: " ++ err) ∧ r3.rows = r2.rows) := by
  obtain ⟨hpk1, -⟩ := InsertFetchMeta_invariant e1 rows ⟨0, T, f⟩ hpk hinv hf hl1
  obtain ⟨id, herr1, hrec1⟩ := InsertFetchMeta_first e1 rows f T hpk hinv hf hl1 hw1
  rw [← h1] at hpk1 herr1 hrec1
  -- the second call finds the record with the time stamp T
  have hsecond : r2 = { rows := r1.rows, err := none, calls := [Call.Begin, Call.First f] } := by
    rw [h2]
    exact (InsertFetchMeta_present e2 r1.rows f T ⟨id, T, f⟩ hpk1 hf hl2 hrec1).1 rfl
  have hrows : r2.rows = r1.rows := by rw [hsecond]
  -- the third call finds it with another time stamp
  have hthird := (InsertFetchMeta_present e3 r1.rows f T2 ⟨id, T, f⟩ hpk1 hf hl3 hrec1).2
    (Ne.symm hT)
  rw [← hrows, ← h3] at hthird
  simp only at hthird
  have hsaved := recordsFor_saved r1.rows f T2 ⟨id, T, f⟩ hpk1 hrec1
  simp only at hsaved
  rw [← hrows] at hsaved
  have hrec2 : recordsFor r2.rows f = [⟨id, T, f⟩] := by rw [hrows]; exact hrec1
  refine ⟨id, herr1, hrec1, by rw [hsecond], hrows, ?_, hrec2, ?_, ?_, ?_, ?_, ?_⟩
  · intro v; rw [hsecond]; simp
  · rw [hthird]; cases e3.saveErr <;> simp
  · intro v; rw [hthird]; cases e3.saveErr <;> simp
  · rw [hthird]
    cases e3.saveErr with
    | some err => exact Or.inr hrec2
    | none =>
      cases hcm : e3.commitErr.isSome with
      | true => exact Or.inr (by simpa using hrec2)
      | false => exact Or.inl (by simpa using hsaved)
  · intro hs hcm
    rw [hthird, hs]
    simp only [hcm, Option.isSome_none, Bool.false_eq_true, if_false, true_and]
    exact hsaved
  · intro err hs
    rw [hthird, hs]
    simp

/-- C1 (amended) at a table of two files: "b.xml", last fetched at 4, is inserted twice
with time stamp 5 and then with time stamp 9.  On an engine whose calls succeed the
third call returns nil and the record of "b.xml" carries 9; on the engine that keeps
the lock of the transaction the second call left open, the third call returns the
error of the update and the record keeps 5. -/
theorem InsertFetchMeta_idempotent_witness :
    (∃ id : Nat,
      recordsFor (InsertFetchMeta MetaEngine.ok
        (InsertFetchMeta MetaEngine.ok
          (InsertFetchMeta MetaEngine.ok [⟨1, 3, "a.xml"⟩, ⟨2, 4, "b.xml"⟩]
            ⟨0, 5, "b.xml"⟩).rows ⟨0, 5, "b.xml"⟩).rows ⟨0, 9, "b.xml"⟩).rows "b.xml"
        = [⟨id, 9, "b.xml"⟩]) ∧
    (∃ id : Nat,
      (InsertFetchMeta
        (lockingEngine (InsertFetchMeta MetaEngine.ok
          (InsertFetchMeta MetaEngine.ok [⟨1, 3, "a.xml"⟩, ⟨2, 4, "b.xml"⟩]
            ⟨0, 5, "b.xml"⟩).rows ⟨0, 5, "b.xml"⟩).calls)
        (InsertFetchMeta MetaEngine.ok
          (InsertFetchMeta MetaEngine.ok [⟨1, 3, "a.xml"⟩, ⟨2, 4, "b.xml"⟩]
            ⟨0, 5, "b.xml"⟩).rows ⟨0, 5, "b.xml"⟩).rows ⟨0, 9, "b.xml"⟩).err =
        some ("Failed to update FetchMeta: " ++ "database is locked") ∧
      recordsFor (InsertFetchMeta MetaEngine.ok
          (InsertFetchMeta MetaEngine.ok [⟨1, 3, "a.xml"⟩, ⟨2, 4, "b.xml"⟩]
            ⟨0, 5, "b.xml"⟩).rows ⟨0, 5, "b.xml"⟩).rows "b.xml" = [⟨id, 5, "b.xml"⟩]) :=
  ⟨(InsertFetchMeta_idempotent [⟨1, 3, "a.xml"⟩, ⟨2, 4, "b.xml"⟩] "b.xml" 5 9
      MetaEngine.ok MetaEngine.ok MetaEngine.ok _ _ _
      (by unfold PrimaryKey; decide) (AtMostOne_of_nodup _ (by decide)) (by decide)
      (by decide) rfl rfl rfl ⟨rfl, rfl, rfl⟩ rfl rfl rfl).imp
      (fun _ h => (h.2.2.2.2.2.2.2.2.2.1 rfl rfl).2),
    (InsertFetchMeta_idempotent [⟨1, 3, "a.xml"⟩, ⟨2, 4, "b.xml"⟩] "b.xml" 5 9
      MetaEngine.ok MetaEngine.ok
      (lockingEngine (InsertFetchMeta MetaEngine.ok
        (InsertFetchMeta MetaEngine.ok [⟨1, 3, "a.xml"⟩, ⟨2, 4, "b.xml"⟩]
          ⟨0, 5, "b.xml"⟩).rows ⟨0, 5, "b.xml"⟩).calls) _ _ _
      (by unfold PrimaryKey; decide) (AtMostOne_of_nodup _ (by decide)) (by decide)
      (by decide) rfl rfl (by decide) ⟨rfl, rfl, rfl⟩ rfl rfl rfl).imp
      (fun _ h => ⟨(h.2.2.2.2.2.2.2.2.2.2 "database is locked" (by decide)).1,
        h.2.2.2.2.2.1⟩)⟩

/-- C1 as stated fails, in four ways.
(1) For the empty file name the lookup has no condition and takes the record with the
least primary key, here the record of "a" with time stamp 5: two calls with ("", 5) are
no-ops, the one record for "" still has time stamp 7, and the third call with ("", 9)
renames the record of "a", so that "" has two records.
(2) The second call returns right after the lookup and finishes its transaction by
neither Commit nor Rollback; on an engine that keeps the lock of that transaction the
third call returns "Failed to update FetchMeta: database is locked" and the record keeps
the time stamp 5.
(3) When the engine refuses the insert of the first call, that call returns an error
and it is the second call that writes.
(4) When the lookup of the second call fails with an engine error, the second call
inserts a second record for the file. -/
theorem InsertFetchMeta_not_idempotent :
    (PrimaryKey [⟨1, 5, "a"⟩, ⟨2, 7, ""⟩] ∧
      AtMostOnePerFileName [⟨1, 5, "a"⟩, ⟨2, 7, ""⟩] ∧
      recordsFor (InsertFetchMeta MetaEngine.ok
        (InsertFetchMeta MetaEngine.ok [⟨1, 5, "a"⟩, ⟨2, 7, ""⟩] ⟨0, 5, ""⟩).rows
          ⟨0, 5, ""⟩).rows "" = [⟨2, 7, ""⟩] ∧
      recordsFor (InsertFetchMeta MetaEngine.ok
        (InsertFetchMeta MetaEngine.ok
          (InsertFetchMeta MetaEngine.ok [⟨1, 5, "a"⟩, ⟨2, 7, ""⟩] ⟨0, 5, ""⟩).rows
            ⟨0, 5, ""⟩).rows ⟨0, 9, ""⟩).rows "" = [⟨1, 9, ""⟩, ⟨2, 7, ""⟩]) ∧
    (InsertFetchMeta MetaEngine.ok [⟨1, 3, "a.xml"⟩, ⟨2, 4, "b.xml"⟩] ⟨0, 5, "b.xml"⟩ =
        { rows := [⟨1, 3, "a.xml"⟩, ⟨2, 5, "b.xml"⟩], err := none,
          calls := [Call.Begin, Call.First "b.xml", Call.Save ⟨2, 5, "b.xml"⟩,
            Call.Commit] } ∧
      InsertFetchMeta (lockingEngine [Call.Begin, Call.First "b.xml",
          Call.Save ⟨2, 5, "b.xml"⟩, Call.Commit])
          [⟨1, 3, "a.xml"⟩, ⟨2, 5, "b.xml"⟩] ⟨0, 5, "b.xml"⟩ =
        { rows := [⟨1, 3, "a.xml"⟩, ⟨2, 5, "b.xml"⟩], err := none,
          calls := [Call.Begin, Call.First "b.xml"] } ∧
      finishes [Call.Begin, Call.First "b.xml"] = [] ∧
      InsertFetchMeta (lockingEngine [Call.Begin, Call.First "b.xml"])
          [⟨1, 3, "a.xml"⟩, ⟨2, 5, "b.xml"⟩] ⟨0, 9, "b.xml"⟩ =
        { rows := [⟨1, 3, "a.xml"⟩, ⟨2, 5, "b.xml"⟩],
          err := some "Failed to update FetchMeta: database is locked",
          calls := [Call.Begin, Call.First "b.xml", Call.Save ⟨2, 9, "b.xml"⟩,
            Call.Rollback] }) ∧
    (InsertFetchMeta { MetaEngine.ok with createErr := some "disk full" } []
          ⟨0, 5, "f"⟩ =
        { rows := [], err := some "Failed to insert FetchMeta: disk full",
          calls := [Call.Begin, Call.First "f", Call.Create ⟨0, 5, "f"⟩,
            Call.Rollback] } ∧
      InsertFetchMeta MetaEngine.ok [] ⟨0, 5, "f"⟩ =
        { rows := [⟨1, 5, "f"⟩], err := none,
          calls := [Call.Begin, Call.First "f", Call.Create ⟨0, 5, "f"⟩,
            Call.Commit] }) ∧
    (InsertFetchMeta MetaEngine.ok [] ⟨0, 5, "f"⟩ =
        { rows := [⟨1, 5, "f"⟩], err := none,
          calls := [Call.Begin, Call.First "f", Call.Create ⟨0, 5, "f"⟩,
            Call.Commit] } ∧
      InsertFetchMeta { MetaEngine.ok with firstErr := some "database is locked" }
          [⟨1, 5, "f"⟩] ⟨0, 5, "f"⟩ =
        { rows := [⟨1, 5, "f"⟩, ⟨2, 5, "f"⟩], err := none,
          calls := [Call.Begin, Call.First "f", Call.Save ⟨0, 5, "f"⟩,
            Call.Commit] }) :=
  ⟨⟨by unfold PrimaryKey; decide, AtMostOne_of_nodup _ (by decide), by decide,
      by decide⟩,
    by decide, by decide, by decide⟩

/-- C2 (amended): on a table with an intact primary key, when the file name of meta is
not empty and the lookup does not fail with an engine error, InsertFetchMeta keeps the
FetchMeta invariant on every path, whatever Create, Save and Commit answer: the table
afterwards has at most one record per file name (and its primary key is intact). -/
theorem InsertFetchMeta_preserves_invariant (eng : MetaEngine) (rows : List FetchMeta)
    (meta : FetchMeta) (hpk : PrimaryKey rows) (hinv : AtMostOnePerFileName rows)
    (hname : meta.FileName ≠ "") (hfirst : eng.firstErr = none) :
    AtMostOnePerFileName (InsertFetchMeta eng rows meta).rows ∧
    PrimaryKey (InsertFetchMeta eng rows meta).rows :=
  ⟨(InsertFetchMeta_invariant eng rows meta hpk hinv hname hfirst).2,
    (InsertFetchMeta_invariant eng rows meta hpk hinv hname hfirst).1⟩

/-- C2 (amended) at a table of two files and a new time stamp for one of them. -/
theorem InsertFetchMeta_preserves_invariant_witness :
    AtMostOnePerFileName
      (InsertFetchMeta MetaEngine.ok [⟨1, 3, "a.xml"⟩, ⟨2, 4, "b.xml"⟩]
        ⟨0, 9, "b.xml"⟩).rows :=
  (InsertFetchMeta_preserves_invariant MetaEngine.ok [⟨1, 3, "a.xml"⟩, ⟨2, 4, "b.xml"⟩]
    ⟨0, 9, "b.xml"⟩ (by unfold PrimaryKey; decide) (AtMostOne_of_nodup _ (by decide))
    (by decide) rfl).1

/-- C2 as stated fails, in two ways.  With an empty file name the lookup has no
condition and finds the record of "a", which the update renames to "": the file name
"" then has two records.  With a lookup that fails with an engine error (not
record-not-found) the code runs Save on the zero-valued oldmeta, whose primary key is
zero, so Save inserts: the file "f" then has two records. -/
theorem InsertFetchMeta_breaks_invariant :
    (PrimaryKey [⟨1, 1, "a"⟩, ⟨2, 2, ""⟩] ∧ AtMostOnePerFileName [⟨1, 1, "a"⟩, ⟨2, 2, ""⟩] ∧
      (InsertFetchMeta MetaEngine.ok [⟨1, 1, "a"⟩, ⟨2, 2, ""⟩] ⟨0, 3, ""⟩).rows =
        [⟨1, 3, ""⟩, ⟨2, 2, ""⟩] ∧
      ¬ AtMostOnePerFileName
        (InsertFetchMeta MetaEngine.ok [⟨1, 1, "a"⟩, ⟨2, 2, ""⟩] ⟨0, 3, ""⟩).rows) ∧
    (PrimaryKey [⟨1, 5, "f"⟩] ∧ AtMostOnePerFileName [⟨1, 5, "f"⟩] ∧
      (InsertFetchMeta { MetaEngine.ok with firstErr := some "database is locked" }
        [⟨1, 5, "f"⟩] ⟨0, 7, "f"⟩).rows = [⟨1, 5, "f"⟩, ⟨2, 7, "f"⟩] ∧
      ¬ AtMostOnePerFileName
        (InsertFetchMeta { MetaEngine.ok with firstErr := some "database is locked" }
          [⟨1, 5, "f"⟩] ⟨0, 7, "f"⟩).rows) :=
  ⟨⟨by unfold PrimaryKey; decide, AtMostOne_of_nodup _ (by decide), by decide,
      fun h => absurd (h "") (by decide)⟩,
    ⟨by unfold PrimaryKey; decide, AtMostOne_of_nodup _ (by decide), by decide,
      fun h => absurd (h "f") (by decide)⟩⟩

/-- C9, the code at failing inputs.  A Commit that fails: InsertFetchMeta returns nil
although nothing was persisted.  A lookup that fails with an engine error: with a time
stamp other than the zero time InsertFetchMeta inserts a second record for the file and
returns nil, with the zero time stamp it returns nil at once. -/
theorem InsertFetchMeta_swallows_errors :
    InsertFetchMeta { MetaEngine.ok with commitErr := some "disk full" } []
        ⟨0, 7, "f"⟩ =
      { rows := [], err := none,
        calls := [Call.Begin, Call.First "f", Call.Create ⟨0, 7, "f"⟩, Call.Commit] } ∧
    InsertFetchMeta { MetaEngine.ok with firstErr := some "database is locked" }
        [⟨1, 5, "f"⟩] ⟨0, 7, "f"⟩ =
      { rows := [⟨1, 5, "f"⟩, ⟨2, 7, "f"⟩], err := none,
        calls := [Call.Begin, Call.First "f", Call.Save ⟨0, 7, "f"⟩, Call.Commit] } ∧
    InsertFetchMeta { MetaEngine.ok with firstErr := some "database is locked" }
        [⟨1, 5, "f"⟩] ⟨0, 0, "f"⟩ =
      { rows := [⟨1, 5, "f"⟩], err := none, calls := [Call.Begin, Call.First "f"] } := by
  decide

/-- What the code does about engine errors, for every engine and input: an error of
Create or Save is returned wrapped after a Rollback; the error of Commit and the error
of the lookup never reach the result, so a call that gets past Create or Save returns
nil. -/
theorem InsertFetchMeta_err (eng : MetaEngine) (rows : List FetchMeta) (meta : FetchMeta) :
    (InsertFetchMeta eng rows meta).err = none ∨
    (∃ err, (InsertFetchMeta eng rows meta).err = some ("Failed to insert FetchMeta: " ++ err)
      ∧ (InsertFetchMeta eng rows meta).calls =
        [Call.Begin, Call.First meta.FileName, Call.Create meta, Call.Rollback]
      ∧ (InsertFetchMeta eng rows meta).rows = rows) ∨
    (∃ err old, (InsertFetchMeta eng rows meta).err =
        some ("Failed to update FetchMeta: " ++ err)
      ∧ (InsertFetchMeta eng rows meta).calls =
        [Call.Begin, Call.First meta.FileName, Call.Save old, Call.Rollback]
      ∧ (InsertFetchMeta eng rows meta).rows = rows) := by
  unfold InsertFetchMeta
  simp only
  split
  · exact Or.inl rfl
  · split
    · cases txCreate eng rows meta with
      | error err => exact Or.inr (Or.inl ⟨err, rfl, rfl, rfl⟩)
      | ok tx => exact Or.inl rfl
    · split
      · next err _ => exact Or.inr (Or.inr ⟨err, _, rfl, rfl, rfl⟩)
      · exact Or.inl rfl

/-- C10, the code at a failing input: the record of "f" has time stamp 5 and meta has
time stamp 5.  InsertFetchMeta returns nil after Begin and the lookup; the transaction
is neither committed nor rolled back. -/
theorem InsertFetchMeta_noop_leaves_transaction_open :
    InsertFetchMeta MetaEngine.ok [⟨1, 5, "f"⟩] ⟨0, 5, "f"⟩ =
      { rows := [⟨1, 5, "f"⟩], err := none, calls := [Call.Begin, Call.First "f"] } ∧
    finishes (InsertFetchMeta MetaEngine.ok [⟨1, 5, "f"⟩] ⟨0, 5, "f"⟩).calls = [] := by
  decide

/-- The transaction of InsertFetchMeta on every path: it is begun first; on the path
that returns after the lookup it is never finished; on every other path it is finished
exactly once, by the last call, a Rollback when an error is returned and a Commit
otherwise. -/
theorem InsertFetchMeta_finishes (eng : MetaEngine) (rows : List FetchMeta)
    (meta : FetchMeta) :
    ((InsertFetchMeta eng rows meta).calls = [Call.Begin, Call.First meta.FileName] ∧
      (InsertFetchMeta eng rows meta).err = none ∧
      finishes (InsertFetchMeta eng rows meta).calls = []) ∨
    ((InsertFetchMeta eng rows meta).err ≠ none ∧
      finishes (InsertFetchMeta eng rows meta).calls = [Call.Rollback] ∧
      (InsertFetchMeta eng rows meta).calls.getLast? = some Call.Rollback) ∨
    ((InsertFetchMeta eng rows meta).err = none ∧
      finishes (InsertFetchMeta eng rows meta).calls = [Call.Commit] ∧
      (InsertFetchMeta eng rows meta).calls.getLast? = some Call.Commit) := by
  unfold InsertFetchMeta
  simp only
  split
  · exact Or.inl ⟨rfl, rfl, by simp [finishes]⟩
  · split
    · cases txCreate eng rows meta with
      | error err => exact Or.inr (Or.inl ⟨by simp, by simp [finishes], by simp⟩)
      | ok tx => exact Or.inr (Or.inr ⟨by simp [txCommit], by simp [txCommit, finishes],
          by simp [txCommit]⟩)
    · split
      · exact Or.inr (Or.inl ⟨by simp, by simp [finishes], by simp⟩)
      · exact Or.inr (Or.inr ⟨by simp [txCommit], by simp [txCommit, finishes],
          by simp [txCommit]⟩)

end GovalDictionary
